import Mathlib

/-!
Shallow embedding of the LinkUp social-network backend (Express + MongoDB).

The repository holds an Express server over MongoDB collections
(`users`, `posts`, `comments`, `notifications`).  The embedding below
translates the route handlers into pure functions over an explicit
database state `DB`.  MongoDB document operators are modelled on lists:
`insertOne` appends, `findOne` is `List.find?`, `updateOne` rewrites the
first matching document, `$addToSet` adds an element if absent, `$pull`
removes all occurrences, `deleteOne` removes the first match and
`deleteMany` filters.  `bcrypt` hashing/comparison and JWT
signing/verification are third-party black boxes and enter as function
parameters.  A handler that would throw an uncaught JavaScript error
(e.g. a property access on `null`) is modelled by the `Resp.crash`
outcome.
-/

namespace LinkUp

abbrev UserId := Nat
abbrev PostId := Nat
abbrev CommentId := Nat

/-- A document of the `users` collection, as written by `POST /api/register`. -/
structure User where
  uid : UserId
  username : String
  email : String
  password : String
  role : String
  banned : Bool
  profileImage : String
  coverImage : String
  bio : String
  location : String
  dateOfBirth : Option String
  followers : List UserId
  following : List UserId
deriving Repr, DecidableEq

/-- A document of the `posts` collection. -/
structure Post where
  pid : PostId
  content : String
  image : Option String
  author : UserId
  likes : List UserId
deriving Repr, DecidableEq

/-- A document of the `comments` collection. -/
structure Comment where
  cid : CommentId
  text : String
  postId : PostId
  author : UserId
deriving Repr, DecidableEq

/-- A document of the `notifications` collection. -/
structure Notification where
  ntype : String
  sender : UserId
  receiver : UserId
  postId : Option PostId
  read : Bool
deriving Repr, DecidableEq

/-- The four MongoDB collections the server touches. -/
structure DB where
  users : List User
  posts : List Post
  comments : List Comment
  notifications : List Notification
deriving Repr, DecidableEq

def emptyDB : DB := ⟨[], [], [], []⟩

/-- MongoDB `$addToSet`: add the element only when it is absent. -/
def addToSet [DecidableEq α] (x : α) (xs : List α) : List α :=
  if x ∈ xs then xs else xs ++ [x]

/-- MongoDB `$pull`: remove every occurrence of the element. -/
def pull [DecidableEq α] (x : α) (xs : List α) : List α :=
  xs.filter (fun y => y ≠ x)

/-- MongoDB `updateOne`: rewrite the first document matching the filter. -/
def updateFirst (p : α → Bool) (f : α → α) : List α → List α
  | [] => []
  | x :: xs => if p x then f x :: xs else x :: updateFirst p f xs

/-- MongoDB `deleteOne`: remove the first document matching the filter. -/
def eraseFirst (p : α → Bool) : List α → List α
  | [] => []
  | x :: xs => if p x then xs else x :: eraseFirst p xs

/-- `Users.findOne \x7b _id \x7d`. -/
def findUser (db : DB) (i : UserId) : Option User :=
  db.users.find? (fun u => u.uid == i)

/-- `Users.findOne \x7b email \x7d`. -/
def findUserByEmail (db : DB) (e : String) : Option User :=
  db.users.find? (fun u => u.email == e)

/-- `Posts.findOne \x7b _id \x7d`. -/
def findPost (db : DB) (i : PostId) : Option Post :=
  db.posts.find? (fun p => p.pid == i)

/-- `Users.updateOne \x7b _id \x7d` with an update function. -/
def updateUser (db : DB) (i : UserId) (f : User → User) : DB :=
  { db with users := updateFirst (fun u => u.uid == i) f db.users }

/-- `Posts.updateOne \x7b _id \x7d` with an update function. -/
def updatePost (db : DB) (i : PostId) (f : Post → Post) : DB :=
  { db with posts := updateFirst (fun p => p.pid == i) f db.posts }

/-- Outcome of a route handler: a 200 response, an error status, or an
uncaught JavaScript exception (no response at all). -/
inductive Resp where
  | ok
  | err (code : Nat)
  | crash
deriving Repr, DecidableEq

/-! ### Notification helper (`createNotification`) -/

/-- `createNotification`: a no-op when `sender` and `receiver` coincide,
otherwise inserts an unread notification document. -/
def createNotification (db : DB) (ntype : String) (sender receiver : UserId)
    (postId : Option PostId) : DB :=
  if sender = receiver then db
  else { db with notifications :=
          db.notifications ++ [⟨ntype, sender, receiver, postId, false⟩] }

/-! ### Auth middleware -/

/-- Result of the `auth` middleware: either a rejection status or the
resolved user attached to the request context. -/
inductive AuthOutcome where
  | reject (code : Nat)
  | proceed (u : User)
deriving Repr, DecidableEq

/-- The `auth` middleware: split out the bearer token (401 when absent),
verify the JWT (401 when invalid), look the user up by the decoded id and
deny with 403 when the user is missing or banned; otherwise attach the
user and continue.  `verify` stands for `jwt.verify`, returning the
decoded id or failing. -/
def auth (db : DB) (verify : String → Option UserId) (token : Option String) :
    AuthOutcome :=
  match token with
  | none => .reject 401
  | some tok =>
    match verify tok with
    | none => .reject 401
    | some uid =>
      match findUser db uid with
      | none => .reject 403
      | some u => if u.banned then .reject 403 else .proceed u

/-- A route guarded by `auth`: the handler body runs only when the
middleware calls `next()` with a resolved user. -/
def guarded (db : DB) (verify : String → Option UserId) (token : Option String)
    (handler : User → DB → DB × Resp) : DB × Resp :=
  match auth db verify token with
  | .reject c => (db, .err c)
  | .proceed u => handler u db

/-! ### Auth routes -/

/-- `POST /api/register` (native driver variant): hash the password and
insert a fresh user document; no duplicate lookup is performed.  `hash`
stands for `bcrypt.hash`; `newId` is the `_id` MongoDB assigns. -/
def register (db : DB) (hash : String → String) (newId : UserId)
    (username email pw : String) : DB × Resp :=
  ({ db with users := db.users ++
      [{ uid := newId
         username := username
         email := email
         password := hash pw
         role := "user"
         banned := false
         profileImage := ""
         coverImage := ""
         bio := ""
         location := ""
         dateOfBirth := none
         followers := []
         following := [] }] }, .ok)

/-- Result of `POST /api/login`. -/
inductive LoginResult where
  | invalid
  | success (token : String) (user : User)
deriving Repr, DecidableEq

/-- `POST /api/login`: look the user up by email, reject with 400 when
absent or when `bcrypt.compare` fails, otherwise sign a token for the
user's id and answer with the token and the user document. -/
def login (db : DB) (compare : String → String → Bool)
    (sign : UserId → String) (email pw : String) : LoginResult :=
  match findUserByEmail db email with
  | none => .invalid
  | some u =>
    if compare pw u.password then .success (sign u.uid) u else .invalid

/-! ### Profile -/

/-- The JSON body of `PUT /api/profile`: an optional value for each user
field the caller may name (`none` means the field is absent from the
body). -/
structure ProfilePatch where
  username : Option String := none
  email : Option String := none
  password : Option String := none
  role : Option String := none
  banned : Option Bool := none
  profileImage : Option String := none
  coverImage : Option String := none
  bio : Option String := none
  location : Option String := none
  dateOfBirth : Option (Option String) := none
  followers : Option (List UserId) := none
  following : Option (List UserId) := none
deriving Repr, DecidableEq

/-- MongoDB `$set` applied to a user document: every field named in the
body is overwritten, every other field is kept. -/
def applySet (u : User) (p : ProfilePatch) : User :=
  { uid := u.uid
    username := p.username.getD u.username
    email := p.email.getD u.email
    password := p.password.getD u.password
    role := p.role.getD u.role
    banned := p.banned.getD u.banned
    profileImage := p.profileImage.getD u.profileImage
    coverImage := p.coverImage.getD u.coverImage
    bio := p.bio.getD u.bio
    location := p.location.getD u.location
    dateOfBirth := p.dateOfBirth.getD u.dateOfBirth
    followers := p.followers.getD u.followers
    following := p.following.getD u.following }

/-- `PUT /api/profile`: `Users.updateOne(\x7b _id: req.user._id \x7d,
\x7b $set: req.body \x7d)` — the body is applied verbatim. -/
def profileUpdate (db : DB) (actorId : UserId) (p : ProfilePatch) : DB × Resp :=
  (updateUser db actorId (fun u => applySet u p), .ok)

/-! ### Follow / unfollow -/

/-- `POST /api/follow/:id`: reject self-follow with 400; otherwise
`$addToSet` the target into the actor's `following`, `$addToSet` the
actor into the target's `followers`, and create a `follow`
notification. -/
def follow (db : DB) (actorId targetId : UserId) : DB × Resp :=
  if targetId = actorId then (db, .err 400)
  else
    let db1 := updateUser db actorId
      (fun u => { u with following := addToSet targetId u.following })
    let db2 := updateUser db1 targetId
      (fun u => { u with followers := addToSet actorId u.followers })
    let db3 := createNotification db2 "follow" actorId targetId none
    (db3, .ok)

/-- `POST /api/unfollow/:id`: `$pull` the symmetric edge pair; no
self-check and no notification. -/
def unfollow (db : DB) (actorId targetId : UserId) : DB × Resp :=
  let db1 := updateUser db actorId
    (fun u => { u with following := pull targetId u.following })
  let db2 := updateUser db1 targetId
    (fun u => { u with followers := pull actorId u.followers })
  (db2, .ok)

/-! ### Posts -/

/-- `POST /api/posts`: insert a post with empty `likes`; the image URL is
pre-resolved by the ImgBB relay. -/
def createPost (db : DB) (newPid : PostId) (actorId : UserId)
    (content : String) (image : Option String) : DB × Resp :=
  ({ db with posts := db.posts ++
      [{ pid := newPid, content := content, image := image,
         author := actorId, likes := [] }] }, .ok)

/-- `PUT /api/posts/:id/like`: fetch the post (accessing `post.likes` on a
missing post throws, modelled as `crash`); when the actor has not liked it
yet, `$addToSet` the actor into `likes` and create a `like` notification
for the post's author. -/
def likePost (db : DB) (actorId : UserId) (postId : PostId) : DB × Resp :=
  match findPost db postId with
  | none => (db, .crash)
  | some post =>
    if post.likes.any (fun j => j == actorId) then (db, .ok)
    else
      let db1 := updatePost db postId
        (fun p => { p with likes := addToSet actorId p.likes })
      let db2 := createNotification db1 "like" actorId post.author (some postId)
      (db2, .ok)

/-! ### Comments -/

/-- `POST /api/posts/:id/comments`: fetch the post, insert the comment
unconditionally, then create a `comment` notification for `post.author`
— when the post is missing, the comment is already persisted before the
`post.author` access throws (modelled as `crash`). -/
def addComment (db : DB) (newCid : CommentId) (actorId : UserId)
    (postId : PostId) (text : String) : DB × Resp :=
  let post? := findPost db postId
  let db1 := { db with comments := db.comments ++
                [{ cid := newCid, text := text, postId := postId,
                   author := actorId }] }
  match post? with
  | none => (db1, .crash)
  | some post =>
    (createNotification db1 "comment" actorId post.author (some postId), .ok)

/-! ### Post deletion -/

/-- `DELETE /api/posts/:id` (mongoose variant): fetch the post (missing
post: `post.author` access throws), reject with 403 unless the actor is
the author; otherwise `deleteOne` the post and `deleteMany` all comments
referencing it. -/
def deletePostRoute (db : DB) (actorId : UserId) (postId : PostId) : DB × Resp :=
  match findPost db postId with
  | none => (db, .crash)
  | some post =>
    if post.author ≠ actorId then (db, .err 403)
    else
      ({ db with
          posts := eraseFirst (fun p => p.pid == postId) db.posts
          comments := db.comments.filter (fun c => c.postId ≠ post.pid) }, .ok)

/-- `DELETE /api/admin/posts/:id`: the `adminOnly` middleware rejects a
non-admin actor with 403; otherwise `deleteOne` the post and `deleteMany`
its comments. -/
def adminDeletePost (db : DB) (actor : User) (postId : PostId) : DB × Resp :=
  if actor.role ≠ "admin" then (db, .err 403)
  else
    ({ db with
        posts := eraseFirst (fun p => p.pid == postId) db.posts
        comments := db.comments.filter (fun c => c.postId ≠ postId) }, .ok)

/-! ### Notifications and admin ban -/

/-- `PUT /api/notifications/read-all`: `updateMany` sets `read` on every
notification addressed to the caller. -/
def setRead (actorId : UserId) (n : Notification) : Notification :=
  if n.receiver == actorId then { n with read := true } else n

/-- `PUT /api/notifications/read-all` as a state transformer. -/
def readAllNotifications (db : DB) (actorId : UserId) : DB × Resp :=
  ({ db with notifications := db.notifications.map (setRead actorId) }, .ok)

/-- `PUT /api/admin/users/:id/ban`: `$set` the ban flag of the target. -/
def banUser (db : DB) (targetId : UserId) : DB × Resp :=
  (updateUser db targetId (fun u => { u with banned := true }), .ok)

/-! ### Traces of operations

Reachable states are those produced from the empty database by a
sequence of the mutating operations above. -/

/-- One mutating request, with the fresh ids and pre-resolved external
results it carries. -/
inductive Op where
  | register (newId : UserId) (username email hashedPw : String)
  | follow (actorId targetId : UserId)
  | unfollow (actorId targetId : UserId)
  | profile (actorId : UserId) (p : ProfilePatch)
  | createPost (newPid : PostId) (actorId : UserId) (content : String)
      (image : Option String)
  | like (actorId : UserId) (postId : PostId)
  | comment (newCid : CommentId) (actorId : UserId) (postId : PostId)
      (text : String)
  | readAll (actorId : UserId)
  | ban (targetId : UserId)
  | delPost (actorId : UserId) (postId : PostId)
  | adminDelPost (actorId : UserId) (postId : PostId)
deriving Repr, DecidableEq

/-- Apply one operation to the database (keeping only the state). -/
def applyOp (db : DB) : Op → DB
  | .register newId un em hpw => (register db (fun _ => hpw) newId un em "").1
  | .follow a t => (follow db a t).1
  | .unfollow a t => (unfollow db a t).1
  | .profile a p => (profileUpdate db a p).1
  | .createPost np a c i => (createPost db np a c i).1
  | .like a p => (likePost db a p).1
  | .comment nc a p t => (addComment db nc a p t).1
  | .readAll a => (readAllNotifications db a).1
  | .ban t => (banUser db t).1
  | .delPost a p => (deletePostRoute db a p).1
  | .adminDelPost a p =>
    match findUser db a with
    | none => db
    | some u => (adminDeletePost db u p).1

/-- Run a sequence of operations from a starting state. -/
def runOps (db : DB) : List Op → DB
  | [] => db
  | op :: ops => runOps (applyOp db op) ops


/-! ## Invariant definitions -/

/-- No user document lists its own id among its followers or its
following. -/
def SE (l : List User) : Prop :=
  ∀ u ∈ l, u.uid ∉ u.followers ∧ u.uid ∉ u.following

/-- The spec's social-graph invariant, on a database state. -/
def noSelfEdge (db : DB) : Prop := SE db.users

instance instDecSE (l : List User) : Decidable (SE l) :=
  List.decidableBAll _ l

instance instDecNoSelfEdge (db : DB) : Decidable (noSelfEdge db) :=
  instDecSE db.users

/-- An operation is graph-safe when it is not a profile update naming the
`followers` or `following` fields. -/
def opSafe : Op → Bool
  | .profile _ p => p.followers.isNone && p.following.isNone
  | _ => true

/-- Every persisted notification has distinct sender and receiver. -/
def NInvL (l : List Notification) : Prop :=
  ∀ n ∈ l, n.sender ≠ n.receiver

instance instDecNInvL (l : List Notification) : Decidable (NInvL l) :=
  List.decidableBAll _ l

/-! ## Concrete states used by witnesses and counterexamples -/

/-- A fresh user document exactly as `register` inserts it. -/
def mkUser (i : UserId) (un em pw : String) : User :=
  { uid := i, username := un, email := em, password := pw, role := "user",
    banned := false, profileImage := "", coverImage := "", bio := "",
    location := "", dateOfBirth := none, followers := [], following := [] }

def dbBanned : DB :=
  ⟨[{ mkUser 1 "alice" "a@x.com" "h1" with banned := true }], [], [], []⟩

def dbReg : DB := ⟨[mkUser 1 "alice" "a@x.com" "h1"], [], [], []⟩

def dbLogin : DB := ⟨[mkUser 1 "alice" "a@x.com" "bcrypt:pw"], [], [], []⟩

def dbTwo : DB :=
  (register (register emptyDB (fun s => s) 1 "alice" "a@x.com" "p1").1
    (fun s => s) 2 "bob" "b@x.com" "p2").1

def postFix : Post := ⟨7, "hello", none, 1, []⟩

def dbSelf : DB := ⟨[mkUser 1 "alice" "a@x.com" "h"], [postFix], [], []⟩

def dbDel : DB :=
  ⟨[mkUser 1 "alice" "a@x.com" "h"], [postFix],
    [⟨3, "c1", 7, 2⟩, ⟨4, "c2", 8, 2⟩], []⟩

def adminUser : User := { mkUser 9 "root" "r@x.com" "h" with role := "admin" }

/-! ## Lemmas about the MongoDB operator models -/

theorem mem_updateFirst {α : Type} {p : α → Bool} {f : α → α} {l : List α}
    {a : α} (h : a ∈ updateFirst p f l) :
    a ∈ l ∨ ∃ x, x ∈ l ∧ p x = true ∧ a = f x := by
  induction l with
  | nil => simp [updateFirst] at h
  | cons x xs ih =>
    rw [updateFirst] at h
    cases hpx : p x with
    | true =>
      simp only [hpx, if_true] at h
      rcases List.mem_cons.mp h with h1 | h1
      · exact Or.inr ⟨x, List.mem_cons_self x xs, hpx, h1⟩
      · exact Or.inl (List.mem_cons_of_mem x h1)
    | false =>
      simp only [hpx, if_false] at h
      rcases List.mem_cons.mp h with h1 | h1
      · exact Or.inl (h1 ▸ List.mem_cons_self x xs)
      · rcases ih h1 with h2 | ⟨y, hy, hpy, hay⟩
        · exact Or.inl (List.mem_cons_of_mem x h2)
        · exact Or.inr ⟨y, List.mem_cons_of_mem x hy, hpy, hay⟩

/-- `updateOne` on one filter does not change what `findOne` on a
disjoint filter sees. -/
theorem find?_updateFirst_other {α : Type} {p q : α → Bool} {f : α → α}
    (l : List α) (h1 : ∀ x, p x = true → q x = false)
    (h2 : ∀ x, p x = true → q (f x) = false) :
    (updateFirst p f l).find? q = l.find? q := by
  induction l with
  | nil => rfl
  | cons x xs ih =>
    rw [updateFirst]
    cases hpx : p x with
    | true =>
      simp only [if_true]
      rw [List.find?_cons_of_neg _ (by simp [h2 x hpx]),
        List.find?_cons_of_neg _ (by simp [h1 x hpx])]
    | false =>
      rw [if_neg (by simp)]
      cases hqx : q x with
      | true => rw [List.find?_cons_of_pos _ hqx, List.find?_cons_of_pos _ hqx]
      | false =>
        rw [List.find?_cons_of_neg _ (by simp [hqx]),
          List.find?_cons_of_neg _ (by simp [hqx]), ih]

/-- `findOne` after `updateOne` on the same filter sees the updated
document, provided the update keeps the document matching. -/
theorem find?_updateFirst_self {α : Type} {p : α → Bool} {f : α → α}
    (l : List α) (hf : ∀ x, p x = true → p (f x) = true) :
    (updateFirst p f l).find? p = (l.find? p).map f := by
  induction l with
  | nil => rfl
  | cons x xs ih =>
    rw [updateFirst]
    cases hpx : p x with
    | true =>
      simp only [if_true]
      rw [List.find?_cons_of_pos _ (hf x hpx), List.find?_cons_of_pos _ hpx]
      rfl
    | false =>
      rw [if_neg (by simp)]
      rw [List.find?_cons_of_neg _ (by simp [hpx]),
        List.find?_cons_of_neg _ (by simp [hpx]), ih]

theorem addToSet_of_mem {α : Type} [DecidableEq α] {x : α} {l : List α}
    (h : x ∈ l) : addToSet x l = l := by
  simp [addToSet, h]

theorem addToSet_of_not_mem {α : Type} [DecidableEq α] {x : α} {l : List α}
    (h : x ∉ l) : addToSet x l = l ++ [x] := by
  simp [addToSet, h]

theorem mem_addToSet_elim {α : Type} [DecidableEq α] {a x : α} {l : List α}
    (h : a ∈ addToSet x l) : a ∈ l ∨ a = x := by
  unfold addToSet at h
  by_cases hx : x ∈ l
  · simp [hx] at h
    exact Or.inl h
  · simp [hx] at h
    rcases h with h | h
    · exact Or.inl h
    · exact Or.inr h

theorem mem_pull {α : Type} [DecidableEq α] {a x : α} {l : List α}
    (h : a ∈ pull x l) : a ∈ l := by
  unfold pull at h
  exact (List.mem_filter.mp h).1

/-- `deleteOne` really removes the only matching document when the filter
matches at most one document (MongoDB `_id` filters always do). -/
theorem find?_eraseFirst {α : Type} {p : α → Bool} {l : List α}
    (h : l.countP p ≤ 1) : (eraseFirst p l).find? p = none := by
  induction l with
  | nil => rfl
  | cons x xs ih =>
    rw [eraseFirst]
    cases hpx : p x with
    | true =>
      simp only [if_true]
      rw [List.countP_cons, hpx] at h
      simp only [if_true] at h
      have hzero : xs.countP p = 0 := by omega
      rw [List.find?_eq_none]
      intro y hy
      have := List.countP_eq_zero.mp hzero y hy
      simp [this]
    | false =>
      rw [if_neg (by simp)]
      rw [List.find?_cons_of_neg _ (by simp [hpx])]
      apply ih
      rw [List.countP_cons, hpx] at h
      simpa using h

/-! ## State-component lemmas -/

theorem createNotification_users (db : DB) (t : String) (s r : UserId)
    (p : Option PostId) : (createNotification db t s r p).users = db.users := by
  unfold createNotification
  split <;> rfl

theorem createNotification_posts (db : DB) (t : String) (s r : UserId)
    (p : Option PostId) : (createNotification db t s r p).posts = db.posts := by
  unfold createNotification
  split <;> rfl

theorem createNotification_comments (db : DB) (t : String) (s r : UserId)
    (p : Option PostId) :
    (createNotification db t s r p).comments = db.comments := by
  unfold createNotification
  split <;> rfl

theorem createNotification_self (db : DB) (t : String) (s : UserId)
    (p : Option PostId) : createNotification db t s s p = db := by
  simp [createNotification]

theorem createNotification_ne (db : DB) (t : String) {s r : UserId}
    (p : Option PostId) (h : s ≠ r) :
    (createNotification db t s r p).notifications =
      db.notifications ++ [⟨t, s, r, p, false⟩] := by
  simp [createNotification, h]

theorem updateUser_notifications (db : DB) (i : UserId) (f : User → User) :
    (updateUser db i f).notifications = db.notifications := rfl

theorem updatePost_notifications (db : DB) (i : PostId) (f : Post → Post) :
    (updatePost db i f).notifications = db.notifications := rfl

theorem updateUser_users (db : DB) (i : UserId) (f : User → User) :
    (updateUser db i f).users = updateFirst (fun u => u.uid == i) f db.users :=
  rfl

theorem updatePost_users (db : DB) (i : PostId) (f : Post → Post) :
    (updatePost db i f).users = db.users := rfl

/-! ## The no-self-edge invariant (social graph) -/

theorem SE_updateFirst {p : User → Bool} {f : User → User} {l : List User}
    (h : SE l)
    (hf : ∀ x, p x = true → x.uid ∉ x.followers ∧ x.uid ∉ x.following →
      (f x).uid ∉ (f x).followers ∧ (f x).uid ∉ (f x).following) :
    SE (updateFirst p f l) := by
  intro u hu
  rcases mem_updateFirst hu with h1 | ⟨x, hx, hpx, rfl⟩
  · exact h u h1
  · exact hf x hpx (h x hx)

theorem SE_applyOp (db : DB) (op : Op) (hop : opSafe op = true)
    (h : SE db.users) : SE (applyOp db op).users := by
  cases op with
  | register newId un em hpw =>
    intro u hu
    rcases List.mem_append.mp hu with h1 | h1
    · exact h u h1
    · rw [List.mem_singleton.mp h1]
      simp
  | follow a t =>
    by_cases hta : t = a
    · simpa [applyOp, follow, hta] using h
    · simp only [applyOp, follow, if_neg hta]
      rw [createNotification_users, updateUser_users, updateUser_users]
      apply SE_updateFirst (SE_updateFirst h ?_) ?_
      · intro x hpx hx
        refine ⟨hx.1, ?_⟩
        intro hmem
        rcases mem_addToSet_elim hmem with h1 | h1
        · exact hx.2 h1
        · exact hta ((beq_iff_eq.mp hpx ▸ h1).symm ▸ rfl)
      · intro x hpx hx
        refine ⟨?_, hx.2⟩
        intro hmem
        rcases mem_addToSet_elim hmem with h1 | h1
        · exact hx.1 h1
        · exact hta (by rw [← beq_iff_eq.mp hpx, h1])
  | unfollow a t =>
    simp only [applyOp, unfollow]
    rw [updateUser_users, updateUser_users]
    apply SE_updateFirst (SE_updateFirst h ?_) ?_
    · exact fun x _ hx => ⟨hx.1, fun hm => hx.2 (mem_pull hm)⟩
    · exact fun x _ hx => ⟨fun hm => hx.1 (mem_pull hm), hx.2⟩
  | profile a p =>
    simp only [opSafe, Bool.and_eq_true, Option.isNone_iff_eq_none] at hop
    simp only [applyOp, profileUpdate]
    rw [updateUser_users]
    apply SE_updateFirst h
    intro x _ hx
    have : (applySet x p).followers = x.followers := by
      rw [applySet]; rw [hop.1]; rfl
    have h2 : (applySet x p).following = x.following := by
      rw [applySet]; rw [hop.2]; rfl
    exact ⟨by rw [this]; exact hx.1, by rw [h2]; exact hx.2⟩
  | createPost np a c i => exact h
  | like a pid =>
    simp only [applyOp]
    cases hfp : findPost db pid with
    | none => simpa [likePost, hfp] using h
    | some post =>
      cases hl : post.likes.any (fun j => j == a) with
      | true => simpa [likePost, hfp, hl] using h
      | false =>
        simp only [likePost, hfp, hl]
        rw [if_neg (by simp)]
        rw [createNotification_users, updatePost_users]
        exact h
  | comment nc a pid t =>
    simp only [applyOp, addComment]
    cases hfp : findPost db pid with
    | none => simpa [hfp] using h
    | some post =>
      simp only [hfp]
      rw [createNotification_users]
      exact h
  | readAll a => exact h
  | ban t =>
    simp only [applyOp, banUser]
    rw [updateUser_users]
    apply SE_updateFirst h
    exact fun x _ hx => hx
  | delPost a pid =>
    simp only [applyOp, deletePostRoute]
    cases hfp : findPost db pid with
    | none => exact h
    | some post =>
      simp only
      by_cases hau : post.author ≠ a
      · simpa [hau] using h
      · simpa [hau] using h
  | adminDelPost a pid =>
    simp only [applyOp]
    cases hfu : findUser db a with
    | none => exact h
    | some u =>
      simp only [adminDeletePost]
      by_cases hr : u.role ≠ "admin"
      · simpa [hr] using h
      · simpa [hr] using h

theorem SE_runOps (db : DB) (ops : List Op)
    (hops : ∀ op ∈ ops, opSafe op = true) (h : SE db.users) :
    SE (runOps db ops).users := by
  induction ops generalizing db with
  | nil => exact h
  | cons op ops ih =>
    rw [runOps]
    exact ih _ (fun o ho => hops o (List.mem_cons_of_mem op ho))
      (SE_applyOp db op (hops op (List.mem_cons_self op ops)) h)

/-! ## The sender-is-not-receiver invariant (notifications) -/

theorem NInvL_createNotification (db : DB) (t : String) (s r : UserId)
    (p : Option PostId) (h : NInvL db.notifications) :
    NInvL (createNotification db t s r p).notifications := by
  unfold createNotification
  split
  · exact h
  · intro n hn
    rcases List.mem_append.mp hn with h1 | h1
    · exact h n h1
    · rw [List.mem_singleton.mp h1]
      assumption

theorem NInvL_applyOp (db : DB) (op : Op) (h : NInvL db.notifications) :
    NInvL (applyOp db op).notifications := by
  cases op with
  | register newId un em hpw => exact h
  | follow a t =>
    by_cases hta : t = a
    · simpa [applyOp, follow, hta] using h
    · simp only [applyOp, follow, if_neg hta]
      apply NInvL_createNotification
      rw [updateUser_notifications, updateUser_notifications]
      exact h
  | unfollow a t => exact h
  | profile a p => exact h
  | createPost np a c i => exact h
  | like a pid =>
    simp only [applyOp]
    cases hfp : findPost db pid with
    | none => simpa [likePost, hfp] using h
    | some post =>
      cases hl : post.likes.any (fun j => j == a) with
      | true => simpa [likePost, hfp, hl] using h
      | false =>
        simp only [likePost, hfp, hl]
        rw [if_neg (by simp)]
        apply NInvL_createNotification
        rw [updatePost_notifications]
        exact h
  | comment nc a pid t =>
    simp only [applyOp, addComment]
    cases hfp : findPost db pid with
    | none => simpa [hfp] using h
    | some post =>
      simp only [hfp]
      exact NInvL_createNotification _ _ _ _ _ h
  | readAll a =>
    intro n hn
    simp only [applyOp, readAllNotifications] at hn
    rcases List.mem_map.mp hn with ⟨m, hm, rfl⟩
    have hs : (setRead a m).sender = m.sender := by
      unfold setRead; split <;> rfl
    have hr : (setRead a m).receiver = m.receiver := by
      unfold setRead; split <;> rfl
    rw [hs, hr]
    exact h m hm
  | ban t => exact h
  | delPost a pid =>
    simp only [applyOp, deletePostRoute]
    cases hfp : findPost db pid with
    | none => exact h
    | some post =>
      by_cases hau : post.author ≠ a
      · simpa [hau] using h
      · simpa [hau] using h
  | adminDelPost a pid =>
    simp only [applyOp]
    cases hfu : findUser db a with
    | none => exact h
    | some u =>
      simp only [adminDeletePost]
      by_cases hr : u.role ≠ "admin"
      · simpa [hr] using h
      · simpa [hr] using h

theorem NInvL_runOps (db : DB) (ops : List Op) (h : NInvL db.notifications) :
    NInvL (runOps db ops).notifications := by
  induction ops generalizing db with
  | nil => exact h
  | cons op ops ih => exact ih _ (NInvL_applyOp db op h)

/-- `PUT /api/profile` rewrites the caller's document to the `$set` of
the request body. -/
theorem findUser_profileUpdate (db : DB) (a : UserId) (p : ProfilePatch)
    (u : User) (hu : findUser db a = some u) :
    findUser (profileUpdate db a p).1 a = some (applySet u p) := by
  unfold findUser at hu ⊢
  show (updateFirst (fun x => x.uid == a) (fun x => applySet x p)
      db.users).find? (fun x => x.uid == a) = some (applySet u p)
  rw [find?_updateFirst_self (p := fun x => x.uid == a)
    (f := fun x => applySet x p) db.users (fun x hx => hx), hu]
  rfl

/-! ## Claims -/

/-- Claim C1: for every identity whose ban flag is set, an authenticated
request with a bearer credential that verifies successfully to that
identity is rejected by the auth middleware with HTTP 403 before the
handler runs: the state is returned unchanged and the result does not
depend on the handler. -/
theorem auth_banned_forbidden (db : DB) (verify : String → Option UserId)
    (tok : String) (uid : UserId) (u : User)
    (handler : User → DB → DB × Resp) (hv : verify tok = some uid)
    (hu : findUser db uid = some u) (hb : u.banned = true) :
    guarded db verify (some tok) handler = (db, .err 403) := by
  simp [guarded, auth, hv, hu, hb]

/-- Witness for C1: a concrete banned user; the handler would wipe the
database, yet the request is rejected with 403 and the state is kept. -/
theorem auth_banned_forbidden_witness :
    guarded dbBanned (fun _ => some 1) (some "tok")
      (fun _ _ => (emptyDB, .ok)) = (dbBanned, .err 403) :=
  auth_banned_forbidden dbBanned (fun _ => some 1) "tok" 1
    { mkUser 1 "alice" "a@x.com" "h1" with banned := true }
    (fun _ _ => (emptyDB, .ok)) rfl (by decide) rfl

/-- Claim C3 (amended): `register` inserts a user document
unconditionally — it always answers 200, grows the collection by one, and
adds one more document carrying the given email and one more carrying the
given username, whether or not such a document already exists; no
`DuplicateIdentity` failure path exists. -/
theorem register_always_inserts (db : DB) (hash : String → String)
    (newId : UserId) (un em pw : String) :
    (register db hash newId un em pw).2 = .ok ∧
    (register db hash newId un em pw).1.users.length = db.users.length + 1 ∧
    (register db hash newId un em pw).1.users.countP
        (fun u => u.email == em) =
      db.users.countP (fun u => u.email == em) + 1 ∧
    (register db hash newId un em pw).1.users.countP
        (fun u => u.username == un) =
      db.users.countP (fun u => u.username == un) + 1 := by
  refine ⟨rfl, ?_, ?_, ?_⟩ <;>
    simp [register, List.countP_append, List.countP_cons]

/-- Counterexample for C3 as stated: registering a second account with an
email that is already present succeeds with 200 and leaves two user
documents with that email. -/
theorem register_duplicate_cex :
    ((register ((register emptyDB (fun s => s) 1 "alice" "a@x.com" "pw1").1)
        (fun s => s) 2 "alice2" "a@x.com" "pw2").2 = Resp.ok) ∧
    ((register ((register emptyDB (fun s => s) 1 "alice" "a@x.com" "pw1").1)
        (fun s => s) 2 "alice2" "a@x.com" "pw2").1.users.countP
        (fun u => u.email == "a@x.com") = 2) := by
  decide

/-- Claim C4 (amended): when the referenced post does not exist, the like
handler changes nothing and dies with an uncaught error (there is no
`NotFound` response), and the comment handler first persists the comment
and then dies with an uncaught error. -/
theorem missing_post_no_notfound (db : DB) (a : UserId) (pid : PostId)
    (cid : CommentId) (text : String) (hfp : findPost db pid = none) :
    likePost db a pid = (db, .crash) ∧
    addComment db cid a pid text =
      ({ db with comments := db.comments ++ [⟨cid, text, pid, a⟩] },
        .crash) := by
  constructor
  · simp [likePost, hfp]
  · simp [addComment, hfp]

/-- Witness for C4's amended statement on the empty database. -/
theorem missing_post_no_notfound_witness :
    likePost emptyDB 1 5 = (emptyDB, .crash) ∧
    addComment emptyDB 9 1 5 "hi" =
      ({ emptyDB with comments := [⟨9, "hi", 5, 1⟩] }, .crash) := by
  have h := missing_post_no_notfound emptyDB 1 5 9 "hi" rfl
  exact ⟨h.1, h.2⟩

/-- Counterexample for C4 as stated: at a concrete absent post id, the
like handler does not answer `NotFound` (it crashes), and the comment
handler persists a comment. -/
theorem missing_post_notfound_cex :
    (likePost emptyDB 1 5).2 = Resp.crash ∧
    (addComment emptyDB 9 1 5 "hi").2 = Resp.crash ∧
    (addComment emptyDB 9 1 5 "hi").1.comments.length = 1 := by
  decide

/-- Claim C8: `createNotification` persists nothing when sender and
receiver coincide, otherwise appends exactly one unread notification;
and in every state reachable from the empty database every persisted
notification has sender distinct from receiver. -/
theorem notify_skip_self_invariant :
    (∀ (db : DB) (t : String) (s : UserId) (p : Option PostId),
      createNotification db t s s p = db) ∧
    (∀ (db : DB) (t : String) (s r : UserId) (p : Option PostId), s ≠ r →
      (createNotification db t s r p).notifications =
        db.notifications ++ [⟨t, s, r, p, false⟩]) ∧
    (∀ ops : List Op, NInvL (runOps emptyDB ops).notifications) := by
  refine ⟨createNotification_self,
    fun db t s r p h => createNotification_ne db t p h, ?_⟩
  intro ops
  apply NInvL_runOps
  intro n hn
  simp [emptyDB] at hn

/-- Witness for C8: a self-notification is dropped, a cross-notification
is appended unread, and a reachable state containing a notification
satisfies the invariant. -/
theorem notify_skip_self_invariant_witness :
    createNotification emptyDB "like" 3 3 none = emptyDB ∧
    (createNotification emptyDB "like" 3 4 none).notifications =
      [⟨"like", 3, 4, none, false⟩] := by
  refine ⟨notify_skip_self_invariant.1 emptyDB "like" 3 none, ?_⟩
  have h := notify_skip_self_invariant.2.1 emptyDB "like" 3 4 none
    (by decide)
  simpa using h

/-- Claim C9: `PUT /api/profile` applies the request body verbatim as a
`$set` to the caller's own document — every field named in the body takes
the supplied value, every field not named keeps its stored value — and in
particular a body naming `role`/`banned` makes the caller an unbanned
admin. -/
theorem profile_update_verbatim :
    (∀ (db : DB) (a : UserId) (p : ProfilePatch) (u : User),
      findUser db a = some u →
      findUser (profileUpdate db a p).1 a = some (applySet u p)) ∧
    (∀ (u : User) (p : ProfilePatch),
      (applySet u p).uid = u.uid ∧
      (applySet u p).username = p.username.getD u.username ∧
      (applySet u p).email = p.email.getD u.email ∧
      (applySet u p).password = p.password.getD u.password ∧
      (applySet u p).role = p.role.getD u.role ∧
      (applySet u p).banned = p.banned.getD u.banned ∧
      (applySet u p).profileImage = p.profileImage.getD u.profileImage ∧
      (applySet u p).coverImage = p.coverImage.getD u.coverImage ∧
      (applySet u p).bio = p.bio.getD u.bio ∧
      (applySet u p).location = p.location.getD u.location ∧
      (applySet u p).dateOfBirth = p.dateOfBirth.getD u.dateOfBirth ∧
      (applySet u p).followers = p.followers.getD u.followers ∧
      (applySet u p).following = p.following.getD u.following) ∧
    (∀ (db : DB) (a : UserId) (u : User), findUser db a = some u →
      (findUser (profileUpdate db a
          { role := some "admin", banned := some false }).1 a).map
          User.role = some "admin" ∧
      (findUser (profileUpdate db a
          { role := some "admin", banned := some false }).1 a).map
          User.banned = some false) := by
  refine ⟨findUser_profileUpdate, ?_, ?_⟩
  · exact fun u p =>
      ⟨rfl, rfl, rfl, rfl, rfl, rfl, rfl, rfl, rfl, rfl, rfl, rfl, rfl⟩
  · intro db a u hu
    rw [findUser_profileUpdate db a _ u hu]
    exact ⟨rfl, rfl⟩

/-- Witness for C9: a concrete non-admin caller updates only their bio,
and separately promotes themself to an unbanned admin. -/
theorem profile_update_verbatim_witness :
    findUser (profileUpdate dbReg 1 { bio := some "hey" }).1 1 =
      some (applySet (mkUser 1 "alice" "a@x.com" "h1") { bio := some "hey" }) ∧
    (findUser (profileUpdate dbReg 1
        { role := some "admin", banned := some false }).1 1).map User.role =
      some "admin" := by
  refine ⟨profile_update_verbatim.1 dbReg 1 _ _ (by decide), ?_⟩
  exact (profile_update_verbatim.2.2 dbReg 1 (mkUser 1 "alice" "a@x.com" "h1")
    (by decide)).1

/-- Claim C2 (amended): in every state reachable from the empty database
by register / follow / unfollow / like / comment / ban / delete /
notification operations and profile updates whose body does not name the
`followers`/`following` fields, no identity appears in its own followers
or following; and a self-follow is rejected with 400 leaving the state
untouched.  (A profile update naming those fields can break the
invariant — see the counterexample.) -/
theorem graph_no_self_edge :
    (∀ ops : List Op, (∀ op ∈ ops, opSafe op = true) →
      noSelfEdge (runOps emptyDB ops)) ∧
    (∀ (db : DB) (a : UserId), follow db a a = (db, Resp.err 400)) := by
  constructor
  · intro ops hops
    refine SE_runOps emptyDB ops hops ?_
    intro u hu
    simp [emptyDB] at hu
  · intro db a
    simp [follow]

/-- Witness for C2's amended statement: a concrete trace of registers,
follow and unfollow keeps the invariant, and a concrete self-follow is
rejected. -/
theorem graph_no_self_edge_witness :
    noSelfEdge (runOps emptyDB
      [.register 1 "alice" "a@x.com" "h1", .register 2 "bob" "b@x.com" "h2",
        .follow 1 2, .unfollow 2 1]) ∧
    follow emptyDB 3 3 = (emptyDB, Resp.err 400) :=
  ⟨graph_no_self_edge.1 _ (by decide), graph_no_self_edge.2 emptyDB 3⟩

/-- Counterexample for C2 as stated: a reachable state — register, then a
profile update whose body sets `following` to contain the caller — has an
identity inside its own following set. -/
theorem self_edge_profile_cex :
    ¬ noSelfEdge (runOps emptyDB
      [.register 1 "alice" "a@x.com" "h1",
        .profile 1 { following := some [1] }]) := by
  decide

/-- Claim C5 (amended): for identities A ≠ B resolvable in the state with
no prior edge, following twice leaves B in A's following exactly once and
A in B's followers exactly once, but each of the two calls appends its own
`follow` notification (the repeat call is not notification-free). -/
theorem follow_repeat_sets_once (db : DB) (a b : UserId) (uA uB : User)
    (hab : a ≠ b) (hA : findUser db a = some uA)
    (hB : findUser db b = some uB) (hfA : b ∉ uA.following)
    (hfB : a ∉ uB.followers) :
    (findUser (follow (follow db a b).1 a b).1 a).map
        (fun u => u.following.count b) = some 1 ∧
    (findUser (follow (follow db a b).1 a b).1 b).map
        (fun u => u.followers.count a) = some 1 ∧
    (follow (follow db a b).1 a b).1.notifications =
      db.notifications ++
        [⟨"follow", a, b, none, false⟩, ⟨"follow", a, b, none, false⟩] := by
  have hba : b ≠ a := fun h => hab h.symm
  have hother_ba : ∀ x : User, (x.uid == b) = true → (x.uid == a) = false := by
    intro x hx
    have hxb : x.uid = b := by simpa using hx
    exact beq_eq_false_iff_ne.mpr (by rw [hxb]; exact hba)
  have hother_ab : ∀ x : User, (x.uid == a) = true → (x.uid == b) = false := by
    intro x hx
    have hxa : x.uid = a := by simpa using hx
    exact beq_eq_false_iff_ne.mpr (by rw [hxa]; exact hab)
  have husers : (follow (follow db a b).1 a b).1.users =
      updateFirst (fun u => u.uid == b)
        (fun u => { u with followers := addToSet a u.followers })
        (updateFirst (fun u => u.uid == a)
          (fun u => { u with following := addToSet b u.following })
          (updateFirst (fun u => u.uid == b)
            (fun u => { u with followers := addToSet a u.followers })
            (updateFirst (fun u => u.uid == a)
              (fun u => { u with following := addToSet b u.following })
              db.users))) := by
    simp only [follow, if_neg hba]
    rw [createNotification_users, updateUser_users, updateUser_users,
      createNotification_users, updateUser_users, updateUser_users]
  have hfindA : findUser (follow (follow db a b).1 a b).1 a =
      some { uA with following := addToSet b (addToSet b uA.following) } := by
    unfold findUser at hA ⊢
    rw [husers,
      find?_updateFirst_other (q := fun u : User => u.uid == a)
        (f := fun u : User => { u with followers := addToSet a u.followers }) _
        hother_ba (fun x hx => hother_ba x hx),
      find?_updateFirst_self (p := fun u : User => u.uid == a)
        (f := fun u : User => { u with following := addToSet b u.following }) _
        (fun x hx => hx),
      find?_updateFirst_other (q := fun u : User => u.uid == a)
        (f := fun u : User => { u with followers := addToSet a u.followers }) _
        hother_ba (fun x hx => hother_ba x hx),
      find?_updateFirst_self (p := fun u : User => u.uid == a)
        (f := fun u : User => { u with following := addToSet b u.following }) _
        (fun x hx => hx),
      hA]
    rfl
  have hfindB : findUser (follow (follow db a b).1 a b).1 b =
      some { uB with followers := addToSet a (addToSet a uB.followers) } := by
    unfold findUser at hB ⊢
    rw [husers,
      find?_updateFirst_self (p := fun u : User => u.uid == b)
        (f := fun u : User => { u with followers := addToSet a u.followers }) _
        (fun x hx => hx),
      find?_updateFirst_other (q := fun u : User => u.uid == b)
        (f := fun u : User => { u with following := addToSet b u.following }) _
        hother_ab (fun x hx => hother_ab x hx),
      find?_updateFirst_self (p := fun u : User => u.uid == b)
        (f := fun u : User => { u with followers := addToSet a u.followers }) _
        (fun x hx => hx),
      find?_updateFirst_other (q := fun u : User => u.uid == b)
        (f := fun u : User => { u with following := addToSet b u.following }) _
        hother_ab (fun x hx => hother_ab x hx),
      hB]
    rfl
  refine ⟨?_, ?_, ?_⟩
  · rw [hfindA]
    show some ((addToSet b (addToSet b uA.following)).count b) = some 1
    rw [addToSet_of_not_mem hfA, addToSet_of_mem (by simp)]
    simp [List.count_append, List.count_eq_zero.mpr hfA]
  · rw [hfindB]
    show some ((addToSet a (addToSet a uB.followers)).count a) = some 1
    rw [addToSet_of_not_mem hfB, addToSet_of_mem (by simp)]
    simp [List.count_append, List.count_eq_zero.mpr hfB]
  · simp only [follow, if_neg hba]
    rw [createNotification_ne _ _ _ hab, updateUser_notifications,
      updateUser_notifications, createNotification_ne _ _ _ hab,
      updateUser_notifications, updateUser_notifications, List.append_assoc]
    rfl

/-- Witness for C5's amended statement on a concrete two-user state. -/
theorem follow_repeat_sets_once_witness :
    (findUser (follow (follow dbTwo 1 2).1 1 2).1 1).map
        (fun u => u.following.count 2) = some 1 ∧
    (follow (follow dbTwo 1 2).1 1 2).1.notifications =
      dbTwo.notifications ++
        [⟨"follow", 1, 2, none, false⟩, ⟨"follow", 1, 2, none, false⟩] := by
  have h := follow_repeat_sets_once dbTwo 1 2
    (mkUser 1 "alice" "a@x.com" "p1") (mkUser 2 "bob" "b@x.com" "p2")
    (by decide) (by decide) (by decide) (by decide) (by decide)
  exact ⟨h.1, h.2.2⟩

/-- Counterexample for C5 as stated: the second identical follow call
appends a second `follow` notification, so it is not a no-op. -/
theorem follow_repeat_notification_cex :
    (follow dbTwo 1 2).1.notifications.length = 1 ∧
    (follow (follow dbTwo 1 2).1 1 2).1.notifications.length = 2 := by
  decide

/-- One like by a user not yet in the like set: the handler inserts the
like and the notification; a second like is a no-op. -/
theorem likePost_twice (db : DB) (a : UserId) (pid : PostId) (post : Post)
    (hfp : findPost db pid = some post) (hnl : a ∉ post.likes) :
    (likePost db a pid).1 =
      createNotification (updatePost db pid
        (fun p => { p with likes := addToSet a p.likes })) "like" a
        post.author (some pid) ∧
    findPost (likePost db a pid).1 pid =
      some { post with likes := addToSet a post.likes } ∧
    likePost (likePost db a pid).1 a pid = ((likePost db a pid).1, .ok) := by
  have hany : (post.likes.any fun j => j == a) = false := by
    rw [List.any_eq_false]
    intro j hj
    simp only [beq_iff_eq]
    exact fun h => hnl (h ▸ hj)
  have h1 : (likePost db a pid).1 =
      createNotification (updatePost db pid
        (fun p => { p with likes := addToSet a p.likes })) "like" a
        post.author (some pid) := by
    simp only [likePost, hfp, hany]
    rw [if_neg (by simp)]
  have h2 : findPost (likePost db a pid).1 pid =
      some { post with likes := addToSet a post.likes } := by
    unfold findPost at hfp ⊢
    rw [h1, createNotification_posts]
    show (updateFirst (fun p => p.pid == pid)
        (fun p => { p with likes := addToSet a p.likes }) db.posts).find?
        (fun p => p.pid == pid) = _
    rw [find?_updateFirst_self (p := fun p : Post => p.pid == pid)
      (f := fun p : Post => { p with likes := addToSet a p.likes }) _
      (fun x hx => hx), hfp]
    rfl
  have hmem : a ∈ addToSet a post.likes := by
    rw [addToSet_of_not_mem hnl]
    simp
  have h3 : likePost (likePost db a pid).1 a pid =
      ((likePost db a pid).1, .ok) := by
    have hgen : ∀ X : DB,
        findPost X pid = some { post with likes := addToSet a post.likes } →
        likePost X a pid = (X, .ok) := by
      intro X hX
      simp [likePost, hX, hmem]
    exact hgen _ h2
  exact ⟨h1, h2, h3⟩

/-- Claim C6 (amended): liking an existing post twice leaves the actor in
its like set exactly once; exactly one `like` notification to the post's
author is produced when the actor is not the author, and none at all when
the actor is the author. -/
theorem like_repeat_once :
    (∀ (db : DB) (a : UserId) (pid : PostId) (post : Post),
      findPost db pid = some post → a ∉ post.likes → post.author ≠ a →
      (findPost (likePost (likePost db a pid).1 a pid).1 pid).map
          (fun q => q.likes.count a) = some 1 ∧
      (likePost (likePost db a pid).1 a pid).1.notifications =
        db.notifications ++ [⟨"like", a, post.author, some pid, false⟩]) ∧
    (∀ (db : DB) (a : UserId) (pid : PostId) (post : Post),
      findPost db pid = some post → a ∉ post.likes → post.author = a →
      (findPost (likePost (likePost db a pid).1 a pid).1 pid).map
          (fun q => q.likes.count a) = some 1 ∧
      (likePost (likePost db a pid).1 a pid).1.notifications =
        db.notifications) := by
  constructor
  · intro db a pid post hfp hnl hau
    obtain ⟨h1, h2, h3⟩ := likePost_twice db a pid post hfp hnl
    constructor
    · rw [h3]
      show (findPost (likePost db a pid).1 pid).map
        (fun q => q.likes.count a) = some 1
      rw [h2]
      show some ((addToSet a post.likes).count a) = some 1
      rw [addToSet_of_not_mem hnl]
      simp [List.count_append, List.count_eq_zero.mpr hnl]
    · rw [h3]
      show (likePost db a pid).1.notifications = _
      rw [h1, createNotification_ne _ _ _ (Ne.symm hau),
        updatePost_notifications]
  · intro db a pid post hfp hnl hau
    obtain ⟨h1, h2, h3⟩ := likePost_twice db a pid post hfp hnl
    constructor
    · rw [h3]
      show (findPost (likePost db a pid).1 pid).map
        (fun q => q.likes.count a) = some 1
      rw [h2]
      show some ((addToSet a post.likes).count a) = some 1
      rw [addToSet_of_not_mem hnl]
      simp [List.count_append, List.count_eq_zero.mpr hnl]
    · rw [h3]
      show (likePost db a pid).1.notifications = _
      rw [h1, hau, createNotification_self, updatePost_notifications]

/-- Witness for C6's amended statement: a non-author double like on a
concrete state yields one like entry and one notification; an author
double like yields one like entry and no notification. -/
theorem like_repeat_once_witness :
    ((findPost (likePost (likePost dbDel 2 7).1 2 7).1 7).map
        (fun q => q.likes.count 2) = some 1 ∧
      (likePost (likePost dbDel 2 7).1 2 7).1.notifications =
        dbDel.notifications ++ [⟨"like", 2, 1, some 7, false⟩]) ∧
    (likePost (likePost dbSelf 1 7).1 1 7).1.notifications =
      dbSelf.notifications := by
  refine ⟨?_, ?_⟩
  · have h := like_repeat_once.1 dbDel 2 7 postFix (by decide) (by decide)
      (by decide)
    exact ⟨h.1, h.2⟩
  · exact (like_repeat_once.2 dbSelf 1 7 postFix (by decide) (by decide)
      (by decide)).2

/-- Counterexample for C6 as stated: the author liking their own existing
post twice leaves the like set with one entry but produces zero
notifications, not exactly one. -/
theorem like_self_notification_cex :
    (findPost (likePost (likePost dbSelf 1 7).1 1 7).1 7).map
        (fun q => q.likes.count 1) = some 1 ∧
    (likePost (likePost dbSelf 1 7).1 1 7).1.notifications = [] := by
  decide

/-- Claim C7: the author-delete route deletes the post and cascades its
comments for the author and answers 403 for anyone else; the admin-delete
route does the same for an admin and answers 403 for a non-admin; so
deletion succeeds exactly for the post's author or an admin, each time
removing the post and every comment referencing it. -/
theorem delete_post_authorization :
    (∀ (db : DB) (actorId : UserId) (pid : PostId) (post : Post),
      findPost db pid = some post → post.author = actorId →
      db.posts.countP (fun q => q.pid == pid) ≤ 1 →
      (deletePostRoute db actorId pid).2 = .ok ∧
      findPost (deletePostRoute db actorId pid).1 pid = none ∧
      ∀ c ∈ (deletePostRoute db actorId pid).1.comments, c.postId ≠ pid) ∧
    (∀ (db : DB) (actor : User) (pid : PostId), actor.role = "admin" →
      db.posts.countP (fun q => q.pid == pid) ≤ 1 →
      (adminDeletePost db actor pid).2 = .ok ∧
      findPost (adminDeletePost db actor pid).1 pid = none ∧
      ∀ c ∈ (adminDeletePost db actor pid).1.comments, c.postId ≠ pid) ∧
    (∀ (db : DB) (actorId : UserId) (pid : PostId) (post : Post),
      findPost db pid = some post → post.author ≠ actorId →
      deletePostRoute db actorId pid = (db, .err 403)) ∧
    (∀ (db : DB) (actor : User) (pid : PostId), actor.role ≠ "admin" →
      adminDeletePost db actor pid = (db, .err 403)) := by
  refine ⟨?_, ?_, ?_, ?_⟩
  · intro db actorId pid post hfp hau hcount
    have hpid : post.pid = pid := by
      unfold findPost at hfp
      simpa using List.find?_some hfp
    have hroute : deletePostRoute db actorId pid =
        ({ db with
            posts := eraseFirst (fun p => p.pid == pid) db.posts
            comments := db.comments.filter (fun c => c.postId ≠ post.pid) },
          .ok) := by
      simp only [deletePostRoute, hfp]
      rw [if_neg (fun h => h hau)]
    refine ⟨by rw [hroute], ?_, ?_⟩
    · rw [hroute]
      show (eraseFirst (fun p => p.pid == pid) db.posts).find?
        (fun p => p.pid == pid) = none
      exact find?_eraseFirst hcount
    · rw [hroute]
      intro c hc
      have hc2 : c ∈ db.comments.filter (fun c => c.postId ≠ post.pid) := hc
      have := of_decide_eq_true (List.mem_filter.mp hc2).2
      rw [hpid] at this
      exact this
  · intro db actor pid hr hcount
    have hroute : adminDeletePost db actor pid =
        ({ db with
            posts := eraseFirst (fun p => p.pid == pid) db.posts
            comments := db.comments.filter (fun c => c.postId ≠ pid) },
          .ok) := by
      simp only [adminDeletePost]
      rw [if_neg (fun h => h hr)]
    refine ⟨by rw [hroute], ?_, ?_⟩
    · rw [hroute]
      show (eraseFirst (fun p => p.pid == pid) db.posts).find?
        (fun p => p.pid == pid) = none
      exact find?_eraseFirst hcount
    · rw [hroute]
      intro c hc
      have hc2 : c ∈ db.comments.filter (fun c => c.postId ≠ pid) := hc
      exact of_decide_eq_true (List.mem_filter.mp hc2).2
  · intro db actorId pid post hfp hau
    simp only [deletePostRoute, hfp]
    rw [if_pos hau]
  · intro db actor pid hr
    simp only [adminDeletePost]
    rw [if_pos hr]

/-- Witness for C7: on a concrete state, the author's delete and an
admin's delete both remove post 7, while a non-author non-admin is
rejected by both routes with 403. -/
theorem delete_post_authorization_witness :
    findPost (deletePostRoute dbDel 1 7).1 7 = none ∧
    findPost (adminDeletePost dbDel adminUser 7).1 7 = none ∧
    deletePostRoute dbDel 2 7 = (dbDel, .err 403) ∧
    adminDeletePost dbDel (mkUser 2 "bob" "b@x.com" "h") 7 =
      (dbDel, .err 403) :=
  ⟨(delete_post_authorization.1 dbDel 1 7 postFix (by decide) (by decide)
      (by decide)).2.1,
    (delete_post_authorization.2.1 dbDel adminUser 7 (by decide)
      (by decide)).2.1,
    delete_post_authorization.2.2.1 dbDel 2 7 postFix (by decide)
      (by decide),
    delete_post_authorization.2.2.2 dbDel (mkUser 2 "bob" "b@x.com" "h") 7
      (by decide)⟩

/-- Claim C10: a successful login answers with the signed token and the
complete stored user document as looked up by email — including its
`password` (credential hash) field. -/
theorem login_returns_stored_record (db : DB)
    (compare : String → String → Bool) (sign : UserId → String)
    (email pw : String) (u : User)
    (hu : findUserByEmail db email = some u)
    (hc : compare pw u.password = true) :
    login db compare sign email pw = .success (sign u.uid) u := by
  simp [login, hu, hc]

/-- Witness for C10: a concrete login returns the stored record, hash
field included. -/
theorem login_returns_stored_record_witness :
    login dbLogin (fun p h => h == ("bcrypt:" ++ p)) (fun _ => "tok")
      "a@x.com" "pw" =
      .success "tok" (mkUser 1 "alice" "a@x.com" "bcrypt:pw") :=
  login_returns_stored_record dbLogin (fun p h => h == ("bcrypt:" ++ p))
    (fun _ => "tok") "a@x.com" "pw" (mkUser 1 "alice" "a@x.com" "bcrypt:pw")
    (by decide) (by decide)

end LinkUp
